import Mathlib

/-!
# Verification of the enhanced-calculator core

Shallow embedding of the calculator's history store, memento-based
undo/redo, arithmetic operation registry, CSV persistence and the
perform-calculation control flow, with theorems checking the
natural-language specification against the code.

Modelling conventions:
* Python floats are modelled as exact rationals (`ℚ`); the `root`
  operation, which takes a genuine real power, is modelled over `ℝ`
  with `Real.rpow`.
* Python lists used as stacks (append / pop / `[-1]` at the tail) are
  modelled as Lean lists with the stack top at the head.
* File I/O is modelled by values: a file is `Option (List RowDict)`
  (`none` = the file does not exist), and `save_to_csv` returns the file
  content it writes.
-/

/-- Embeds the fields of `datetime` used by `Calculation`
(`app/calculation.py`): `isoformat` prints year, month, day, hour,
minute, second and, when nonzero, microsecond. -/
structure Timestamp where
  year : Nat
  month : Nat
  day : Nat
  hour : Nat
  minute : Nat
  second : Nat
  microsecond : Nat
deriving DecidableEq

/-- Range constraints of a Python `datetime` value (day upper bound
relaxed to 31; only the upper bounds matter for serialization). -/
def Timestamp.Valid (t : Timestamp) : Prop :=
  1 ≤ t.year ∧ t.year ≤ 9999 ∧ 1 ≤ t.month ∧ t.month ≤ 12 ∧
  1 ≤ t.day ∧ t.day ≤ 31 ∧ t.hour ≤ 23 ∧ t.minute ≤ 59 ∧
  t.second ≤ 59 ∧ t.microsecond ≤ 999999

/-- One decimal digit character (of `n % 10`). -/
def digitChar (n : Nat) : Char := Char.ofNat (48 + n % 10)

/-- Zero-padded fixed-width decimal rendering, most significant digit
first, as `datetime.isoformat` prints each numeric field. -/
def padChars : Nat → Nat → List Char
  | 0, _ => []
  | w + 1, n => padChars w (n / 10) ++ [digitChar n]

/-- Reads exactly `w` decimal digits, extending the accumulator `acc`;
returns the value and the remaining characters. -/
def readDigits : Nat → Nat → List Char → Option (Nat × List Char)
  | 0, acc, cs => some (acc, cs)
  | _ + 1, _, [] => none
  | w + 1, acc, c :: cs =>
      if c.isDigit then readDigits w (acc * 10 + (c.toNat - 48)) cs else none

/-- Consumes one expected separator character. -/
def expectChar (c : Char) : List Char → Option (List Char)
  | x :: xs => if x = c then some xs else none
  | [] => none

/-- Characters of `datetime.isoformat()`:
`YYYY-MM-DDTHH:MM:SS` followed by `.ffffff` exactly when the
microsecond field is nonzero. -/
def isoChars (t : Timestamp) : List Char :=
  padChars 4 t.year ++ ('-' :: (padChars 2 t.month ++ ('-' :: (padChars 2 t.day ++
  ('T' :: (padChars 2 t.hour ++ (':' :: (padChars 2 t.minute ++ (':' :: (padChars 2 t.second ++
  (if t.microsecond = 0 then [] else '.' :: padChars 6 t.microsecond)))))))))))

/-- Parses the character form produced by `isoChars` (the subset of
`datetime.fromisoformat` reachable from rows written by `isoformat`);
any other input is rejected (`none` models the raised `ValueError`). -/
def fromisoChars (cs : List Char) : Option Timestamp :=
  (readDigits 4 0 cs).bind fun yc =>
  (expectChar '-' yc.2).bind fun cs2 =>
  (readDigits 2 0 cs2).bind fun moc =>
  (expectChar '-' moc.2).bind fun cs3 =>
  (readDigits 2 0 cs3).bind fun dc =>
  (expectChar 'T' dc.2).bind fun cs4 =>
  (readDigits 2 0 cs4).bind fun hc =>
  (expectChar ':' hc.2).bind fun cs5 =>
  (readDigits 2 0 cs5).bind fun mic =>
  (expectChar ':' mic.2).bind fun cs6 =>
  (readDigits 2 0 cs6).bind fun sc =>
  match sc.2 with
  | [] => some ⟨yc.1, moc.1, dc.1, hc.1, mic.1, sc.1, 0⟩
  | '.' :: cs7 =>
      (readDigits 6 0 cs7).bind fun usc =>
      match usc.2 with
      | [] => some ⟨yc.1, moc.1, dc.1, hc.1, mic.1, sc.1, usc.1⟩
      | _ => none
  | _ => none

/-- Embeds `datetime.isoformat` (`Calculation.to_dict`). -/
def Timestamp.isoformat (t : Timestamp) : String := ⟨isoChars t⟩

/-- Embeds `datetime.fromisoformat` (`Calculation.from_dict`); `none`
models the raised `ValueError`. -/
def Timestamp.fromisoformat (s : String) : Option Timestamp := fromisoChars s.data

theorem digitChar_facts (n : Nat) :
    (digitChar n).isDigit = true ∧ (digitChar n).toNat = 48 + n % 10 := by
  have h : n % 10 < 10 := Nat.mod_lt n (by norm_num)
  have key : ∀ m : Nat, m < 10 →
      (Char.ofNat (48 + m)).isDigit = true ∧ (Char.ofNat (48 + m)).toNat = 48 + m := by
    decide
  exact key (n % 10) h

theorem readDigits_padChars (w : Nat) : ∀ (v acc n : Nat) (rest : List Char), n < 10 ^ w →
    readDigits (v + w) acc (padChars w n ++ rest) =
      readDigits v (acc * 10 ^ w + n) rest := by
  induction w with
  | zero =>
      intro v acc n rest h
      have hn : n = 0 := Nat.lt_one_iff.mp h
      simp [padChars, hn]
  | succ w ih =>
      intro v acc n rest h
      have hshift : v + (w + 1) = (v + 1) + w := by omega
      have hdiv : n / 10 < 10 ^ w := by
        have : n < 10 ^ w * 10 := by
          have := h
          rw [pow_succ] at this
          exact this
        exact Nat.div_lt_of_lt_mul (by omega)
      have hrec := ih (v + 1) acc (n / 10) (digitChar n :: rest) hdiv
      have hstep : readDigits (v + 1) (acc * 10 ^ w + n / 10) (digitChar n :: rest) =
          readDigits v ((acc * 10 ^ w + n / 10) * 10 + n % 10) rest := by
        have hd := digitChar_facts n
        simp [readDigits, hd.1, hd.2]
      have harith : (acc * 10 ^ w + n / 10) * 10 + n % 10 = acc * 10 ^ (w + 1) + n := by
        have hm := Nat.div_add_mod n 10
        calc (acc * 10 ^ w + n / 10) * 10 + n % 10
            = acc * (10 ^ w * 10) + (10 * (n / 10) + n % 10) := by ring
          _ = acc * 10 ^ (w + 1) + n := by rw [hm, pow_succ]
      calc readDigits (v + (w + 1)) acc (padChars (w + 1) n ++ rest)
          = readDigits ((v + 1) + w) acc (padChars w (n / 10) ++ (digitChar n :: rest)) := by
            rw [hshift]; simp [padChars]
        _ = readDigits (v + 1) (acc * 10 ^ w + n / 10) (digitChar n :: rest) := hrec
        _ = readDigits v ((acc * 10 ^ w + n / 10) * 10 + n % 10) rest := hstep
        _ = readDigits v (acc * 10 ^ (w + 1) + n) rest := by rw [harith]

theorem readDigits_pad (w n : Nat) (rest : List Char) (h : n < 10 ^ w) :
    readDigits w 0 (padChars w n ++ rest) = some (n, rest) := by
  have := readDigits_padChars w 0 0 n rest h
  simpa [readDigits] using this

theorem readDigits_pad_nil (w n : Nat) (h : n < 10 ^ w) :
    readDigits w 0 (padChars w n) = some (n, []) := by
  have := readDigits_pad w n [] h
  simpa using this

theorem expectChar_cons_self (c : Char) (xs : List Char) :
    expectChar c (c :: xs) = some xs := by
  simp [expectChar]

/-- Round trip of the ISO-8601 serialization: parsing what `isoformat`
prints recovers every field of a valid timestamp. -/
theorem fromiso_iso (t : Timestamp) (h : t.Valid) :
    Timestamp.fromisoformat (Timestamp.isoformat t) = some t := by
  obtain ⟨y, mo, d, hh, mi, s, us⟩ := t
  obtain ⟨_, hy, _, hmo, _, hd, hhh, hmi, hs, hus⟩ := h
  dsimp only at hy hmo hd hhh hmi hs hus
  show fromisoChars (isoChars ⟨y, mo, d, hh, mi, s, us⟩) = _
  rw [fromisoChars, isoChars]
  rw [readDigits_pad 4 y _ (by norm_num; omega)]
  simp only [Option.some_bind, expectChar_cons_self]
  rw [readDigits_pad 2 mo _ (by norm_num; omega)]
  simp only [Option.some_bind, expectChar_cons_self]
  rw [readDigits_pad 2 d _ (by norm_num; omega)]
  simp only [Option.some_bind, expectChar_cons_self]
  rw [readDigits_pad 2 hh _ (by norm_num; omega)]
  simp only [Option.some_bind, expectChar_cons_self]
  rw [readDigits_pad 2 mi _ (by norm_num; omega)]
  simp only [Option.some_bind, expectChar_cons_self]
  by_cases h0 : us = 0
  · rw [if_pos h0]
    rw [readDigits_pad 2 s [] (by norm_num; omega)]
    simp [h0]
  · rw [if_neg h0]
    rw [readDigits_pad 2 s _ (by norm_num; omega)]
    simp only [Option.some_bind]
    rw [readDigits_pad_nil 6 us (by norm_num; omega)]
    simp

/-- Embeds `Calculation` (`app/calculation.py`): one computation record.
Floats are modelled as exact rationals. -/
structure Calculation where
  operation : String
  operand_a : ℚ
  operand_b : ℚ
  result : ℚ
  timestamp : Timestamp
deriving DecidableEq

/-- One persisted CSV row keyed `operation, operand_a, operand_b,
result, timestamp` (`Calculation.to_dict`).  The numeric columns are
modelled as the exact values, since the persisted decimal text parses
losslessly back to the same float; the timestamp column is the actual
ISO-8601 string. -/
structure RowDict where
  operation : String
  operand_a : ℚ
  operand_b : ℚ
  result : ℚ
  timestamp : String
deriving DecidableEq

/-- Embeds `Calculation.to_dict`. -/
def Calculation.to_dict (c : Calculation) : RowDict :=
  ⟨c.operation, c.operand_a, c.operand_b, c.result, c.timestamp.isoformat⟩

/-- Embeds `Calculation.from_dict`; `none` models the `ValueError`
raised when the timestamp text does not parse. -/
def Calculation.from_dict (r : RowDict) : Option Calculation :=
  match Timestamp.fromisoformat r.timestamp with
  | some t => some ⟨r.operation, r.operand_a, r.operand_b, r.result, t⟩
  | none => none

/-- Embeds `OperationError` (`app/exceptions.py`). -/
structure OperationError where
  msg : String
deriving DecidableEq

/-- Embeds `ValidationError` (`app/exceptions.py`). -/
structure ValidationError where
  msg : String
deriving DecidableEq

/-- Embeds `HistoryError` (`app/exceptions.py`). -/
structure HistoryError where
  msg : String
deriving DecidableEq

instance {ε α : Type} [DecidableEq ε] [DecidableEq α] : DecidableEq (Except ε α) :=
  fun x y =>
  match x, y with
  | .error a, .error b =>
      if h : a = b then .isTrue (congrArg Except.error h)
      else .isFalse fun hc => h (by injection hc)
  | .ok a, .ok b =>
      if h : a = b then .isTrue (congrArg Except.ok h)
      else .isFalse fun hc => h (by injection hc)
  | .error _, .ok _ => .isFalse fun hc => by injection hc
  | .ok _, .error _ => .isFalse fun hc => by injection hc

/-! ## Arithmetic operation registry (`app/operations.py`)

Each `execute` returns `Except OperationError ℚ`: `.error` models the
raised exception.  Python's float `%` and `//` are floored: `a % b` is
`a - b * ⌊a / b⌋` and `a // b` is `⌊a / b⌋`. -/

/-- Python `a % b` on numbers (floored modulo, exact-arithmetic form). -/
def pyMod (a b : ℚ) : ℚ := a - b * ⌊a / b⌋

/-- Embeds `DivideOperation.execute`. -/
def DivideOperation.execute (a b : ℚ) : Except OperationError ℚ :=
  if b = 0 then .error ⟨"Division by zero is not allowed"⟩
  else .ok (a / b)

/-- Embeds `ModulusOperation.execute`. -/
def ModulusOperation.execute (a b : ℚ) : Except OperationError ℚ :=
  if b = 0 then .error ⟨"Modulus by zero is not allowed"⟩
  else .ok (pyMod a b)

/-- Embeds `IntDivideOperation.execute`: `float(a // b)` is the floor
of the quotient. -/
def IntDivideOperation.execute (a b : ℚ) : Except OperationError ℚ :=
  if b = 0 then .error ⟨"Integer division by zero is not allowed"⟩
  else .ok ((⌊a / b⌋ : ℤ) : ℚ)

/-- Embeds `PercentOperation.execute`. -/
def PercentOperation.execute (a b : ℚ) : Except OperationError ℚ :=
  if b = 0 then .error ⟨"Cannot calculate percentage with zero denominator"⟩
  else .ok ((a / b) * 100)

/-- Embeds `AbsDiffOperation.execute`. -/
def AbsDiffOperation.execute (a b : ℚ) : Except OperationError ℚ :=
  .ok |a - b|

/-! ## History store (`app/history.py`)

`HistoryManager` holds the configured `max_history_size` (an `int`
environment value, modelled as a natural number) and the record list. -/

structure HistoryState where
  max_history_size : Nat
  history : List Calculation
deriving DecidableEq

/-- Python slice `l[-m:]`: the last `m` elements — except that `m = 0`
gives `l[0:]`, the whole list. -/
def pySliceLast (m : Nat) (l : List Calculation) : List Calculation :=
  if m = 0 then l else l.drop (l.length - m)

/-- Embeds `HistoryManager.add_calculation`: append, then truncate to
the trailing `max_history_size` entries when the bound is exceeded. -/
def HistoryManager.add_calculation (c : Calculation) (s : HistoryState) : HistoryState :=
  let h := s.history ++ [c]
  if s.max_history_size < h.length then
    { s with history := pySliceLast s.max_history_size h }
  else
    { s with history := h }

/-- Embeds `HistoryManager.clear_history`. -/
def HistoryManager.clear_history (s : HistoryState) : HistoryState :=
  { s with history := [] }

/-- Embeds `HistoryManager.set_history`: wholesale replacement, no
truncation. -/
def HistoryManager.set_history (l : List Calculation) (s : HistoryState) : HistoryState :=
  { s with history := l }

/-- Embeds the row loop of `HistoryManager.load_from_csv`: parse every
row, aborting on the first failure. -/
def HistoryManager.parse_rows : List RowDict → Except HistoryError (List Calculation)
  | [] => .ok []
  | r :: rs =>
    match Calculation.from_dict r with
    | some c =>
      match HistoryManager.parse_rows rs with
      | .ok cs => .ok (c :: cs)
      | .error e => .error e
    | none => .error ⟨"Failed to parse calculation from CSV"⟩

/-- Embeds `HistoryManager.load_from_csv`.  The file is a value:
`none` means the path does not exist; `some rows` its parsed rows (a
header-only or empty file is `some []`, matching the
`EmptyDataError` branch).  The result pairs the returned
bool-or-raised-error with the post-call state: `self._history` is
assigned only after every row has parsed. -/
def HistoryManager.load_from_csv (file : Option (List RowDict)) (s : HistoryState) :
    Except HistoryError Bool × HistoryState :=
  match file with
  | none => (.ok false, s)
  | some rows =>
    match HistoryManager.parse_rows rows with
    | .ok cs => (.ok true, { s with history := cs })
    | .error e => (.error e, s)

/-- Embeds `HistoryManager.save_to_csv`, returning the file content it
writes to a fresh path: an empty history writes nothing (`none`),
otherwise every record is serialized via `to_dict` in order. -/
def HistoryManager.save_to_csv (s : HistoryState) : Option (List RowDict) :=
  if s.history.isEmpty then none
  else some (s.history.map Calculation.to_dict)

/-! ## Memento undo/redo (`app/calculator_memento.py`)

`CaretakerState` bundles the originator history with the caretaker's
two stacks.  A memento is the copied history list itself; Python
appends, pops and peeks (`[-1]`) at the list tail, modelled here with
the stack top at the head. -/

structure CaretakerState where
  originator : List Calculation
  undo_stack : List (List Calculation)
  redo_stack : List (List Calculation)
deriving DecidableEq

/-- Embeds `CalculatorCaretaker.__init__` with a fresh
`CalculatorOriginator`: both stacks start empty. -/
def CalculatorCaretaker.init : CaretakerState := ⟨[], [], []⟩

/-- Embeds `CalculatorCaretaker.save_state`: push a snapshot of the
originator's current history; clear the redo stack. -/
def CalculatorCaretaker.save_state (s : CaretakerState) : CaretakerState :=
  { s with undo_stack := s.originator :: s.undo_stack, redo_stack := [] }

/-- Embeds `CalculatorCaretaker.can_undo`: more than one snapshot. -/
def CalculatorCaretaker.can_undo (s : CaretakerState) : Bool :=
  decide (1 < s.undo_stack.length)

/-- Embeds `CalculatorCaretaker.can_redo`. -/
def CalculatorCaretaker.can_redo (s : CaretakerState) : Bool :=
  decide (0 < s.redo_stack.length)

/-- Embeds `CalculatorCaretaker.undo`.  The two-cons pattern is exactly
`can_undo`; the guard fails otherwise and nothing changes.  On success
the top snapshot moves to the redo stack and the originator is restored
to the new top, which is peeked, not popped. -/
def CalculatorCaretaker.undo (s : CaretakerState) : Bool × CaretakerState :=
  match s.undo_stack with
  | current :: previous :: rest =>
      (true, ⟨previous, previous :: rest, current :: s.redo_stack⟩)
  | _ => (false, s)

/-- Embeds `CalculatorCaretaker.redo`: pop the redo top, restore the
originator to it, push it back onto the undo stack. -/
def CalculatorCaretaker.redo (s : CaretakerState) : Bool × CaretakerState :=
  match s.redo_stack with
  | next :: rest =>
      (true, ⟨next, next :: s.undo_stack, rest⟩)
  | [] => (false, s)

/-- Embeds `CalculatorOriginator.add_calculation` (no size bound). -/
def CalculatorCaretaker.add_calculation (c : Calculation) (s : CaretakerState) : CaretakerState :=
  { s with originator := s.originator ++ [c] }

/-- The mutating caretaker/originator operations, for stating
invariants over every reachable state. -/
inductive CareOp
  | checkpoint
  | undoOp
  | redoOp
  | addCalc (c : Calculation)

def applyCareOp : CareOp → CaretakerState → CaretakerState
  | .checkpoint, s => CalculatorCaretaker.save_state s
  | .undoOp, s => (CalculatorCaretaker.undo s).2
  | .redoOp, s => (CalculatorCaretaker.redo s).2
  | .addCalc c, s => CalculatorCaretaker.add_calculation c s

/-! ## Root operation (`RootOperation.execute`)

The only operation that takes a genuine real power (`a ** (1/b)`), so
it is embedded over `ℝ` with `Real.rpow`.  Python's `b % 2 == 0` on a
finite float holds exactly when `b` is an even integer, and
`0.0 ** negative` raises `ZeroDivisionError`, caught and re-raised as
an `OperationError`. -/

open Classical in
noncomputable def RootOperation.execute (a b : ℝ) : Except OperationError ℝ :=
  if b = 0 then .error ⟨"Cannot calculate 0th root"⟩
  else if a < 0 ∧ (∃ k : ℤ, b = 2 * k) then
    .error ⟨"Cannot calculate even root of negative number"⟩
  else if a < 0 then .ok (-((-a) ^ ((1 : ℝ) / b)))
  else if a = 0 ∧ (1 : ℝ) / b < 0 then
    .error ⟨"Error computing root: 0.0 cannot be raised to a negative power"⟩
  else .ok (a ^ ((1 : ℝ) / b))

/-! ## Calculator (`app/calculator.py`, `app/input_validators.py`) -/

/-- Embeds `InputValidator.validate_number`: the text is modelled as
its parse outcome (`none` when `float(value)` raises `ValueError`),
followed by the configured magnitude check. -/
def InputValidator.validate_number (max_input_value : ℚ) :
    Option ℚ → Except ValidationError ℚ
  | none => .error ⟨"is not a valid number"⟩
  | some n =>
      if max_input_value < |n| then
        .error ⟨"Input value exceeds maximum allowed value"⟩
      else .ok n

/-- Nearest integer, ties to even: the rounding of Python's built-in
`round`. -/
def roundHalfEven (x : ℚ) : ℤ :=
  if Int.fract x < 1 / 2 then ⌊x⌋
  else if 1 / 2 < Int.fract x then ⌊x⌋ + 1
  else if ⌊x⌋ % 2 = 0 then ⌊x⌋ else ⌊x⌋ + 1

/-- Python `round(x, p)` for nonnegative `p`, in exact arithmetic. -/
def pyRound (p : Nat) (x : ℚ) : ℚ := (roundHalfEven (x * 10 ^ p) : ℚ) / 10 ^ p

/-- The calculator state touched by `_perform_calculation`: the
history manager plus the originator/caretaker. -/
structure CalculatorState where
  history_manager : HistoryState
  caretaker : CaretakerState
deriving DecidableEq

/-- The error surfaced by `_perform_calculation`. -/
inductive PerformError
  | validation (e : ValidationError)
  | operation (e : OperationError)
deriving DecidableEq

/-- Embeds `Calculator._perform_calculation` over the ℚ-valued
operations: validate both operands (first failure surfaces), execute
the operation, round, build the record (`now` models
`datetime.now()`), then — only on success — checkpoint the caretaker,
append to the history manager and to the originator.  The observer
notification touches none of the modelled state.  The post-call state
accompanies the result, unchanged on every error path exactly as in
the source, where the exception propagates before any mutation. -/
def Calculator.perform_calculation (operation_name : String)
    (op : ℚ → ℚ → Except OperationError ℚ)
    (max_input_value : ℚ) (precision : Nat)
    (a_in b_in : Option ℚ) (now : Timestamp) (st : CalculatorState) :
    Except PerformError ℚ × CalculatorState :=
  match InputValidator.validate_number max_input_value a_in with
  | .error e => (.error (.validation e), st)
  | .ok a =>
    match InputValidator.validate_number max_input_value b_in with
    | .error e => (.error (.validation e), st)
    | .ok b =>
      match op a b with
      | .error e => (.error (.operation e), st)
      | .ok r0 =>
        let result := pyRound precision r0
        let record : Calculation := ⟨operation_name, a, b, result, now⟩
        let st1 : CalculatorState :=
          { st with caretaker := CalculatorCaretaker.save_state st.caretaker }
        let st2 : CalculatorState :=
          { st1 with history_manager := HistoryManager.add_calculation record st1.history_manager }
        let st3 : CalculatorState :=
          { st2 with caretaker := CalculatorCaretaker.add_calculation record st2.caretaker }
        (.ok result, st3)

/-! ## Concrete records for scenario evaluations -/

def t2024 : Timestamp := ⟨2024, 1, 15, 12, 30, 45, 0⟩

def recA : Calculation := ⟨"add", 5, 3, 8, t2024⟩

def recB : Calculation := ⟨"subtract", 10, 4, 6, t2024⟩

/-- The caretaker state after `checkpoint; add A; checkpoint; add B`
from a fresh caretaker. -/
def scenarioState : CaretakerState :=
  CalculatorCaretaker.add_calculation recB (CalculatorCaretaker.save_state
    (CalculatorCaretaker.add_calculation recA (CalculatorCaretaker.save_state
      CalculatorCaretaker.init)))

/-- C1: evaluating the spec scenario `checkpoint; add A; checkpoint;
add B; undo; undo; redo` on the code: the first `undo` succeeds but
restores the originator to the **empty** baseline (the claim expects
`[A]`), the second `undo` is indeed a `false` no-op, and `redo`
restores `[A]` (the claim expects `[A, B]`).  The caretaker assumes the
top undo snapshot is the current state, but the calculator checkpoints
the pre-mutation state, so `undo` jumps one state too far — the repo's
own `test_undo` expects one record to remain and fails on this code. -/
theorem c1_scenario_eval :
    (CalculatorCaretaker.undo scenarioState).1 = true ∧
    (CalculatorCaretaker.undo scenarioState).2.originator = [] ∧
    (CalculatorCaretaker.undo (CalculatorCaretaker.undo scenarioState).2).1 = false ∧
    (CalculatorCaretaker.undo (CalculatorCaretaker.undo scenarioState).2).2 =
      (CalculatorCaretaker.undo scenarioState).2 ∧
    (CalculatorCaretaker.redo (CalculatorCaretaker.undo scenarioState).2).1 = true ∧
    (CalculatorCaretaker.redo (CalculatorCaretaker.undo scenarioState).2).2.originator = [recA] := by
  decide

/-- C2 counterexample: a freshly constructed caretaker has an **empty**
undo stack — no baseline snapshot is captured at construction, so the
undo stack is not non-empty in every reachable state. -/
theorem c2_counterexample :
    CalculatorCaretaker.init.undo_stack = [] ∧
    CalculatorCaretaker.can_undo CalculatorCaretaker.init = false := by
  decide

/-- C2 (amended): construction pushes no baseline — both stacks start
empty; a checkpoint always leaves the undo stack non-empty, every
operation preserves non-emptiness once established, and `canUndo` is
true exactly when the undo stack holds more than one snapshot. -/
theorem c2_amended :
    CalculatorCaretaker.init.undo_stack = [] ∧
    (∀ s : CaretakerState, (CalculatorCaretaker.save_state s).undo_stack ≠ []) ∧
    (∀ (op : CareOp) (s : CaretakerState),
      s.undo_stack ≠ [] → (applyCareOp op s).undo_stack ≠ []) ∧
    (∀ s : CaretakerState, CalculatorCaretaker.can_undo s = true ↔ 1 < s.undo_stack.length) := by
  refine ⟨rfl, ?_, ?_, ?_⟩
  · intro s
    simp [CalculatorCaretaker.save_state]
  · intro op s h
    cases op with
    | checkpoint => simp [applyCareOp, CalculatorCaretaker.save_state]
    | undoOp =>
        obtain ⟨o, u, r⟩ := s
        rcases u with _ | ⟨a, _ | ⟨b, t⟩⟩
        · exact absurd rfl h
        · simp [applyCareOp, CalculatorCaretaker.undo]
        · simp [applyCareOp, CalculatorCaretaker.undo]
    | redoOp =>
        obtain ⟨o, u, r⟩ := s
        rcases r with _ | ⟨a, t⟩
        · simpa [applyCareOp, CalculatorCaretaker.redo] using h
        · simp [applyCareOp, CalculatorCaretaker.redo]
    | addCalc c => simpa [applyCareOp, CalculatorCaretaker.add_calculation] using h
  · intro s
    simp [CalculatorCaretaker.can_undo]

/-- C2 witness: non-emptiness preservation applied at a concrete
state. -/
theorem c2_amended_witness :
    (applyCareOp CareOp.undoOp ⟨[], [[]], []⟩).undo_stack ≠ [] :=
  c2_amended.2.2.1 CareOp.undoOp ⟨[], [[]], []⟩ (by decide)

/-- C3 counterexample: a store within its bound (`max = 2`, empty), to
which `setAll` hands a three-element list, ends with three records —
`set_history` never truncates, so the bound is not preserved. -/
theorem c3_counterexample :
    (⟨2, []⟩ : HistoryState).history.length ≤ 2 ∧
    ¬ (HistoryManager.set_history [recA, recA, recA] ⟨2, []⟩).history.length ≤ 2 := by
  decide

theorem add_calculation_length (c : Calculation) (s : HistoryState)
    (hm : 1 ≤ s.max_history_size) :
    (HistoryManager.add_calculation c s).history.length ≤ s.max_history_size := by
  simp only [HistoryManager.add_calculation, pySliceLast]
  split_ifs with h1 h2
  · omega
  · simp only [List.length_drop, List.length_append, List.length_singleton]
    omega
  · simp only [List.length_append, List.length_singleton] at h1 ⊢
    omega

/-- C3 (amended): for `maxHistorySize ≥ 1`, `add` and `clear` always
leave the length within the bound (the `m = 0` configuration is
excluded because the Python slice `l[-0:]` keeps the whole list);
`setAll` stores exactly the given list, so it stays within the bound
precisely when the given list does. -/
theorem c3_amended (s : HistoryState) (c : Calculation) (l : List Calculation)
    (hm : 1 ≤ s.max_history_size) (_hs : s.history.length ≤ s.max_history_size) :
    (HistoryManager.add_calculation c s).history.length ≤ s.max_history_size ∧
    (HistoryManager.clear_history s).history.length ≤ s.max_history_size ∧
    (HistoryManager.set_history l s).history = l ∧
    (l.length ≤ s.max_history_size →
      (HistoryManager.set_history l s).history.length ≤ s.max_history_size) := by
  refine ⟨add_calculation_length c s hm, ?_, rfl, ?_⟩
  · simp [HistoryManager.clear_history]
  · intro hl
    simpa [HistoryManager.set_history] using hl

/-- C3 witness: the amended statement at a concrete bounded store. -/
theorem c3_amended_witness :
    (HistoryManager.add_calculation recB ⟨2, [recA]⟩).history.length ≤ 2 :=
  (c3_amended ⟨2, [recA]⟩ recB [recA] (by decide) (by decide)).1

/-- C4 counterexample: with `maxHistorySize = 0`, appending
`0 + 1` records leaves one record, not zero — Python's `l[-0:]` slice
is the whole list, so nothing is ever dropped. -/
theorem c4_counterexample :
    ¬ ([recA].foldl (fun s c => HistoryManager.add_calculation c s)
        ⟨0, []⟩).history.length = 0 := by
  decide

/-- The trailing `m` elements of a list. -/
def takeLastCalc (m : Nat) (l : List Calculation) : List Calculation :=
  l.drop (l.length - m)

theorem add_calculation_eq_takeLast (c : Calculation) (s : HistoryState)
    (hm : 1 ≤ s.max_history_size) :
    HistoryManager.add_calculation c s =
      ⟨s.max_history_size, takeLastCalc s.max_history_size (s.history ++ [c])⟩ := by
  obtain ⟨m, h⟩ := s
  simp only [HistoryManager.add_calculation, pySliceLast, takeLastCalc]
  dsimp only at hm ⊢
  split_ifs with h1 h2
  · omega
  · rfl
  · simp only [List.length_append, List.length_singleton] at h1 ⊢
    have h2 : h.length + 1 - m = 0 := by omega
    rw [h2, List.drop_zero]

theorem takeLastCalc_append_takeLast (m : Nat) (xs ys : List Calculation) :
    takeLastCalc m (takeLastCalc m xs ++ ys) = takeLastCalc m (xs ++ ys) := by
  simp only [takeLastCalc]
  rw [← List.drop_append_of_le_length (by omega : xs.length - m ≤ xs.length)]
  rw [List.drop_drop]
  congr 1
  simp only [List.length_append, List.length_drop]
  omega

theorem foldl_add_calculation (rs : List Calculation) :
    ∀ (m : Nat) (h0 : List Calculation), 1 ≤ m → rs ≠ [] →
    rs.foldl (fun s c => HistoryManager.add_calculation c s) ⟨m, h0⟩ =
      ⟨m, takeLastCalc m (h0 ++ rs)⟩ := by
  induction rs with
  | nil => intro m h0 _ hne; exact absurd rfl hne
  | cons r rs ih =>
      intro m h0 hm _
      rcases eq_or_ne rs [] with hnil | hne
      · subst hnil
        simp only [List.foldl_cons, List.foldl_nil]
        exact add_calculation_eq_takeLast r ⟨m, h0⟩ hm
      · simp only [List.foldl_cons]
        rw [add_calculation_eq_takeLast r ⟨m, h0⟩ hm]
        rw [ih m _ hm hne]
        rw [takeLastCalc_append_takeLast]
        simp

/-- C4 (amended): for `maxHistorySize ≥ 1` — the `m = 0` configuration
is excluded because Python's `l[-0:]` slice keeps everything — starting
from any history and appending `maxHistorySize + k` records (`k > 0`)
one by one leaves exactly the most recent `maxHistorySize` appended
records in their original order, the `k` oldest dropped. -/
theorem c4_amended (m k : Nat) (h0 records : List Calculation)
    (hm : 1 ≤ m) (hk : 1 ≤ k) (hlen : records.length = m + k) :
    (records.foldl (fun s c => HistoryManager.add_calculation c s) ⟨m, h0⟩).history
      = records.drop k ∧
    (records.foldl (fun s c => HistoryManager.add_calculation c s) ⟨m, h0⟩).history.length
      = m := by
  have hne : records ≠ [] := by
    intro h
    rw [h] at hlen
    simp at hlen
    omega
  rw [foldl_add_calculation records m h0 hm hne]
  have hdrop : takeLastCalc m (h0 ++ records) = records.drop k := by
    simp only [takeLastCalc, List.length_append, hlen]
    have hsplit : h0.length + (m + k) - m = h0.length + k := by omega
    rw [hsplit, ← List.drop_drop]
    rw [List.drop_append_of_le_length (le_refl h0.length)]
    simp
  refine ⟨hdrop, ?_⟩
  rw [hdrop]
  simp [hlen]

/-- C4 witness: `max = 2`, `k = 1`, three appended records. -/
theorem c4_amended_witness :
    ([recA, recB, recA].foldl (fun s c => HistoryManager.add_calculation c s)
      ⟨2, []⟩).history = [recB, recA] :=
  (c4_amended 2 1 [] [recA, recB, recA] (by decide) (by decide) (by decide)).1

/-- C5 counterexample: `modulus(-7, 3)` returns `2`, which is positive
— the result's sign does **not** follow the dividend; Python's `%` is
floored, not truncating. -/
theorem c5_counterexample :
    ModulusOperation.execute (-7) 3 = .ok 2 ∧ ¬ ((2 : ℚ) ≤ 0) := by
  have hfloor : ⌊(-7 : ℚ) / 3⌋ = -3 := by
    rw [Int.floor_eq_iff]
    norm_num
  constructor
  · simp only [ModulusOperation.execute, pyMod, hfloor]
    norm_num
  · norm_num

theorem pyMod_eq_fract (a b : ℚ) (hb : b ≠ 0) :
    pyMod a b = b * Int.fract (a / b) := by
  unfold pyMod Int.fract
  rw [mul_sub, mul_div_cancel₀ a hb]

/-- C5 (amended): for nonzero `b` the modulus operation returns
`a - b * ⌊a / b⌋` (Python's floored `%`), whose sign follows the
**divisor**: for positive `b` the result lies in `[0, b)` — so a
negative dividend with a positive divisor gives a non-negative result
— and for negative `b` it lies in `(b, 0]`. -/
theorem c5_amended (a b : ℚ) (hb : b ≠ 0) :
    ModulusOperation.execute a b = .ok (pyMod a b) ∧
    (0 < b → 0 ≤ pyMod a b ∧ pyMod a b < b) ∧
    (b < 0 → b < pyMod a b ∧ pyMod a b ≤ 0) := by
  have hfr := pyMod_eq_fract a b hb
  have h0 := Int.fract_nonneg (a / b)
  have h1 := Int.fract_lt_one (a / b)
  refine ⟨by simp [ModulusOperation.execute, hb], ?_, ?_⟩
  · intro hbpos
    constructor
    · rw [hfr]
      exact mul_nonneg hbpos.le h0
    · rw [hfr]
      nlinarith
  · intro hbneg
    constructor
    · rw [hfr]
      nlinarith
    · rw [hfr]
      nlinarith

/-- C5 witness: the amended bounds at `a = -7`, `b = 3`. -/
theorem c5_amended_witness :
    0 ≤ pyMod (-7) 3 ∧ pyMod (-7) 3 < 3 :=
  (c5_amended (-7) 3 (by norm_num)).2.1 (by norm_num)

/-- C6: for every numeric pair, `divide`, `modulus`, `int_divide` and
`percent` fail with an `OperationError` at `b = 0`, `abs_diff` never
fails — at every pair, `b = 0` included — and returns `|a - b|`, and
the four partial operations return a result whenever `b` is nonzero. -/
theorem c6_zero_divisor_errors (a b : ℚ) :
    DivideOperation.execute a 0 = .error ⟨"Division by zero is not allowed"⟩ ∧
    ModulusOperation.execute a 0 = .error ⟨"Modulus by zero is not allowed"⟩ ∧
    IntDivideOperation.execute a 0 = .error ⟨"Integer division by zero is not allowed"⟩ ∧
    PercentOperation.execute a 0 = .error ⟨"Cannot calculate percentage with zero denominator"⟩ ∧
    AbsDiffOperation.execute a b = .ok |a - b| ∧
    (b ≠ 0 →
      DivideOperation.execute a b = .ok (a / b) ∧
      ModulusOperation.execute a b = .ok (pyMod a b) ∧
      IntDivideOperation.execute a b = .ok ((⌊a / b⌋ : ℤ) : ℚ) ∧
      PercentOperation.execute a b = .ok ((a / b) * 100)) := by
  refine ⟨by simp [DivideOperation.execute], by simp [ModulusOperation.execute],
    by simp [IntDivideOperation.execute], by simp [PercentOperation.execute],
    rfl, fun hb => ?_⟩
  refine ⟨?_, ?_, ?_, ?_⟩ <;>
    simp [DivideOperation.execute, ModulusOperation.execute,
      IntDivideOperation.execute, PercentOperation.execute, hb]

/-- C6 witness: `abs_diff` succeeding at the zero-divisor pair
`(1, 0)` and `divide` succeeding at `(1, 2)`. -/
theorem c6_witness :
    AbsDiffOperation.execute 1 0 = .ok |1 - 0| ∧
    DivideOperation.execute 1 2 = .ok (1 / 2) :=
  ⟨(c6_zero_divisor_errors 1 0).2.2.2.2.1,
   ((c6_zero_divisor_errors 1 2).2.2.2.2.2 (by norm_num)).1⟩

theorem not_even_int_of_odd_int (b : ℝ) (h : ∃ k : ℤ, b = 2 * k + 1) :
    ¬ ∃ k : ℤ, b = 2 * k := by
  obtain ⟨k, hk⟩ := h
  rintro ⟨m, hm⟩
  rw [hk] at hm
  have : (2 * k + 1 : ℤ) = 2 * m := by
    exact_mod_cast (by push_cast at hm ⊢; exact_mod_cast hm : ((2 * k + 1 : ℤ) : ℝ) = ((2 * m : ℤ) : ℝ))
  omega

theorem odd_int_ne_zero (b : ℝ) (h : ∃ k : ℤ, b = 2 * k + 1) : b ≠ 0 := by
  obtain ⟨k, hk⟩ := h
  intro h0
  rw [hk] at h0
  have : (2 * k + 1 : ℤ) = 0 := by exact_mod_cast (by push_cast; exact_mod_cast h0 : ((2 * k + 1 : ℤ) : ℝ) = 0)
  omega

/-- C7 counterexample: `root(0, -2)` does not return
`0 ** (1 / (-2))` — Python raises `ZeroDivisionError` for a zero base
and negative exponent, which the code converts to an
`OperationError` — so "for a ≥ 0 and nonzero b it returns a^(1/b)"
fails at `a = 0`, `b = -2`. -/
theorem c7_counterexample :
    RootOperation.execute 0 (-2) =
      .error ⟨"Error computing root: 0.0 cannot be raised to a negative power"⟩ ∧
    RootOperation.execute 0 (-2) ≠ .ok ((0 : ℝ) ^ ((1 : ℝ) / (-2))) := by
  have h : RootOperation.execute 0 (-2) =
      .error ⟨"Error computing root: 0.0 cannot be raised to a negative power"⟩ := by
    rw [RootOperation.execute]
    rw [if_neg (by norm_num : ¬ ((-2 : ℝ) = 0))]
    rw [if_neg (by simp : ¬ ((0 : ℝ) < 0 ∧ ∃ k : ℤ, (-2 : ℝ) = 2 * k))]
    rw [if_neg (by norm_num : ¬ ((0 : ℝ) < 0))]
    rw [if_pos (by norm_num : (0 : ℝ) = 0 ∧ (1 : ℝ) / (-2) < 0)]
  exact ⟨h, by rw [h]; intro hc; injection hc⟩

/-- C7 (amended): `root` fails at `b = 0` and for a negative radicand
with an even-integer index; for a negative radicand and odd-integer
index it returns `-(|a| ^ (1/b))`, with `root(-27, 3)` within `1e-9` of
`-3`; for `a ≥ 0` and nonzero `b` it returns `a ^ (1/b)` **except**
when `a = 0` and `b < 0`, where the zero-base negative power raises
and the operation fails. -/
theorem c7_amended :
    (∀ a : ℝ, RootOperation.execute a 0 = .error ⟨"Cannot calculate 0th root"⟩) ∧
    (∀ a b : ℝ, a < 0 → (∃ k : ℤ, b = 2 * k) →
      ∃ e, RootOperation.execute a b = .error e) ∧
    (∀ a b : ℝ, a < 0 → (∃ k : ℤ, b = 2 * k + 1) →
      RootOperation.execute a b = .ok (-((-a) ^ ((1 : ℝ) / b)))) ∧
    (∃ r : ℝ, RootOperation.execute (-27) 3 = .ok r ∧ |r - (-3)| < 1 / 1000000000) ∧
    (∀ a b : ℝ, 0 ≤ a → b ≠ 0 → ¬ (a = 0 ∧ b < 0) →
      RootOperation.execute a b = .ok (a ^ ((1 : ℝ) / b))) := by
  have hok : ∀ a b : ℝ, a < 0 → (∃ k : ℤ, b = 2 * k + 1) →
      RootOperation.execute a b = .ok (-((-a) ^ ((1 : ℝ) / b))) := by
    intro a b ha hodd
    rw [RootOperation.execute]
    rw [if_neg (odd_int_ne_zero b hodd)]
    rw [if_neg (by rintro ⟨_, he⟩; exact not_even_int_of_odd_int b hodd he)]
    rw [if_pos ha]
  refine ⟨?_, ?_, hok, ?_, ?_⟩
  · intro a
    rw [RootOperation.execute, if_pos rfl]
  · intro a b ha heven
    rcases eq_or_ne b 0 with hb | hb
    · subst hb
      exact ⟨⟨"Cannot calculate 0th root"⟩, by rw [RootOperation.execute, if_pos rfl]⟩
    · refine ⟨⟨"Cannot calculate even root of negative number"⟩, ?_⟩
      rw [RootOperation.execute, if_neg hb, if_pos ⟨ha, heven⟩]
  · refine ⟨-3, ?_, by norm_num⟩
    have h3 : RootOperation.execute (-27) 3 = .ok (-((27 : ℝ) ^ ((1 : ℝ) / 3))) := by
      have := hok (-27) 3 (by norm_num) ⟨1, by norm_num⟩
      simpa using this
    rw [h3]
    have hcube : ((27 : ℝ)) = (3 : ℝ) ^ ((3 : ℕ) : ℝ) := by
      rw [Real.rpow_natCast]
      norm_num
    have hroot : (27 : ℝ) ^ ((1 : ℝ) / 3) = 3 := by
      rw [hcube, ← Real.rpow_mul (by norm_num : (0 : ℝ) ≤ 3)]
      norm_num
    rw [hroot]
  · intro a b ha hb hnot
    rw [RootOperation.execute]
    rw [if_neg hb]
    rw [if_neg (by rintro ⟨hc, _⟩; exact absurd hc (not_lt.mpr ha))]
    rw [if_neg (not_lt.mpr ha)]
    rw [if_neg (by rintro ⟨h0, hneg⟩; exact hnot ⟨h0, one_div_neg.mp hneg⟩)]

/-- C7 witness: the fifth conjunct at `a = 4`, `b = 2`. -/
theorem c7_amended_witness :
    RootOperation.execute 4 2 = .ok ((4 : ℝ) ^ ((1 : ℝ) / 2)) :=
  c7_amended.2.2.2.2 4 2 (by norm_num) (by norm_num) (by norm_num)

theorem parse_rows_error_of_bad_row (rows : List RowDict)
    (h : ∃ r ∈ rows, Calculation.from_dict r = none) :
    ∃ e, HistoryManager.parse_rows rows = .error e := by
  induction rows with
  | nil => simp at h
  | cons r rs ih =>
      rcases h with ⟨x, hx, hbad⟩
      rcases List.mem_cons.mp hx with hhead | htail
      · subst hhead
        exact ⟨⟨"Failed to parse calculation from CSV"⟩,
          by simp [HistoryManager.parse_rows, hbad]⟩
      · cases hr : Calculation.from_dict r with
        | none =>
            exact ⟨⟨"Failed to parse calculation from CSV"⟩,
              by simp [HistoryManager.parse_rows, hr]⟩
        | some c =>
            obtain ⟨e, he⟩ := ih ⟨x, htail, hbad⟩
            exact ⟨e, by simp [HistoryManager.parse_rows, hr, he]⟩

/-- C8: loading a nonexistent file returns `false` without raising and
leaves the history untouched; and when the file exists but some row
fails to parse, the whole load aborts with a `HistoryError` and the
history is exactly as before the call — no partial commit. -/
theorem c8_load_error_handling (s : HistoryState) (rows : List RowDict)
    (hbad : ∃ r ∈ rows, Calculation.from_dict r = none) :
    HistoryManager.load_from_csv none s = (.ok false, s) ∧
    ∃ e, HistoryManager.load_from_csv (some rows) s = (.error e, s) := by
  refine ⟨rfl, ?_⟩
  obtain ⟨e, he⟩ := parse_rows_error_of_bad_row rows hbad
  exact ⟨e, by simp [HistoryManager.load_from_csv, he]⟩

/-- A row whose timestamp text does not parse. -/
def badRow : RowDict := ⟨"add", 1, 2, 3, "garbage"⟩

/-- C8 witness: a one-row file with an unparsable timestamp. -/
theorem c8_witness :
    ∃ e, HistoryManager.load_from_csv (some [badRow]) ⟨100, []⟩ = (.error e, ⟨100, []⟩) :=
  (c8_load_error_handling ⟨100, []⟩ [badRow]
    ⟨badRow, List.mem_singleton.mpr rfl, by decide⟩).2

theorem from_dict_to_dict (c : Calculation) (h : c.timestamp.Valid) :
    Calculation.from_dict (Calculation.to_dict c) = some c := by
  obtain ⟨op, a, b, r, t⟩ := c
  simp only [Calculation.to_dict, Calculation.from_dict]
  rw [fromiso_iso t h]

theorem parse_rows_map_to_dict (l : List Calculation)
    (h : ∀ c ∈ l, c.timestamp.Valid) :
    HistoryManager.parse_rows (l.map Calculation.to_dict) = .ok l := by
  induction l with
  | nil => rfl
  | cons c cs ih =>
      have hc := h c (List.mem_cons_self c cs)
      have hcs := ih fun x hx => h x (List.mem_cons_of_mem c hx)
      simp [HistoryManager.parse_rows, from_dict_to_dict c hc, hcs]

/-- C9: serializing a record and parsing the row back yields the same
record field for field, and saving a history then loading it into a
fresh store reproduces the original sequence in order. -/
theorem c9_roundtrip :
    (∀ c : Calculation, c.timestamp.Valid →
      Calculation.from_dict (Calculation.to_dict c) = some c) ∧
    (∀ (m : Nat) (s : HistoryState), (∀ c ∈ s.history, c.timestamp.Valid) →
      (HistoryManager.load_from_csv (HistoryManager.save_to_csv s) ⟨m, []⟩).2.history
        = s.history) := by
  refine ⟨from_dict_to_dict, ?_⟩
  intro m s hval
  rcases eq_or_ne s.history [] with he | he
  · simp [HistoryManager.save_to_csv, HistoryManager.load_from_csv, he]
  · have hne : ¬ s.history.isEmpty := by simpa [List.isEmpty_iff] using he
    simp [HistoryManager.save_to_csv, hne, HistoryManager.load_from_csv,
      parse_rows_map_to_dict s.history hval]

/-- C9 witness: the per-record round trip at a concrete record. -/
theorem c9_roundtrip_witness :
    Calculation.from_dict (Calculation.to_dict recA) = some recA :=
  c9_roundtrip.1 recA (by norm_num [recA, t2024, Timestamp.Valid])

/-- C10: perform-calculation is atomic on failure — when operand
validation fails (either operand) or the operation itself fails, the
call surfaces the error and the calculator state is exactly as before:
no checkpoint is pushed, the redo stack is not cleared, and nothing is
appended to the history store or the originator's history. -/
theorem c10_atomic_on_failure (operation_name : String)
    (op : ℚ → ℚ → Except OperationError ℚ) (max_input_value : ℚ) (precision : Nat)
    (a_in b_in : Option ℚ) (now : Timestamp) (st : CalculatorState) :
    (∀ e, InputValidator.validate_number max_input_value a_in = .error e →
      Calculator.perform_calculation operation_name op max_input_value precision
        a_in b_in now st = (.error (.validation e), st)) ∧
    (∀ a e, InputValidator.validate_number max_input_value a_in = .ok a →
      InputValidator.validate_number max_input_value b_in = .error e →
      Calculator.perform_calculation operation_name op max_input_value precision
        a_in b_in now st = (.error (.validation e), st)) ∧
    (∀ a b e, InputValidator.validate_number max_input_value a_in = .ok a →
      InputValidator.validate_number max_input_value b_in = .ok b →
      op a b = .error e →
      Calculator.perform_calculation operation_name op max_input_value precision
        a_in b_in now st = (.error (.operation e), st)) := by
  refine ⟨?_, ?_, ?_⟩
  · intro e ha
    simp [Calculator.perform_calculation, ha]
  · intro a e ha hb
    simp [Calculator.perform_calculation, ha, hb]
  · intro a b e ha hb hop
    simp [Calculator.perform_calculation, ha, hb, hop]

/-- C10 witness: an unparsable first operand with the modulus
operation leaves a concrete initial state untouched. -/
theorem c10_witness :
    Calculator.perform_calculation "modulus" ModulusOperation.execute 1000000 10
      none (some 3) t2024 ⟨⟨100, []⟩, CalculatorCaretaker.init⟩ =
      (.error (.validation ⟨"is not a valid number"⟩), ⟨⟨100, []⟩, CalculatorCaretaker.init⟩) :=
  (c10_atomic_on_failure "modulus" ModulusOperation.execute 1000000 10
    none (some 3) t2024 ⟨⟨100, []⟩, CalculatorCaretaker.init⟩).1
    ⟨"is not a valid number"⟩ rfl
